import Mathlib

/-
Verification of the MSR bit-field codec and mutation protocol of
`zenstates.py`.

Modelling conventions:
* Python integers are arbitrary-precision, so they are modelled as `ℤ`
  (with Python's two's-complement semantics for the bitwise operators),
  or as `ℕ` where a value is known to be non-negative.
* Python floats are modelled as exact rationals `ℚ`; `round` is modelled
  as round-half-to-even, exactly Python's rounding mode.
* `struct.pack('Q', val)` raises unless `0 ≤ val < 2^64`; `struct.unpack('Q', ...)`
  always yields a value `< 2^64`.
* An uncaught Python exception is modelled as `Except.error ()`.
-/

namespace ZenStates

/-- Bitwise AND-NOT on naturals: the bits of `m` with the bits of `n`
cleared.  This is `m & ~n` for the infinite-width two's-complement `~n`. -/
def natAndNot (m n : ℕ) : ℕ := m ^^^ (m &&& n)

/-- Python `~x` on an arbitrary-precision integer. -/
def pyNot (x : ℤ) : ℤ := -(x + 1)

/-- Python `x & y`: bitwise AND with two's-complement semantics on
arbitrary-precision integers. -/
def pyAnd : ℤ → ℤ → ℤ
  | .ofNat m, .ofNat n => .ofNat (m &&& n)
  | .ofNat m, .negSucc n => .ofNat (natAndNot m n)
  | .negSucc m, .ofNat n => .ofNat (natAndNot n m)
  | .negSucc m, .negSucc n => .negSucc (m ||| n)

/-- Python `x | y`: bitwise OR with two's-complement semantics. -/
def pyOr : ℤ → ℤ → ℤ
  | .ofNat m, .ofNat n => .ofNat (m ||| n)
  | .ofNat m, .negSucc n => .negSucc (natAndNot n m)
  | .negSucc m, .ofNat n => .negSucc (natAndNot m n)
  | .negSucc m, .negSucc n => .negSucc (m &&& n)

/-- Python `x << n` on arbitrary-precision integers. -/
def pyShl (x : ℤ) (n : ℕ) : ℤ := x * 2 ^ n

/-- Python `x >> n`: arithmetic (floor) right shift. -/
def pyShr (x : ℤ) (n : ℕ) : ℤ := Int.fdiv x (2 ^ n)

/-- Bit `i` of a two's-complement arbitrary-precision integer. -/
def intTestBit : ℤ → ℕ → Bool
  | .ofNat m, i => m.testBit i
  | .negSucc m, i => !(m.testBit i)

/-- `pstates = range(0xC0010064, 0xC001006C)`; `pstates p` is `pstates[p]`
for `p < 8` (argparse restricts the index to `choices=range(8)`). -/
def pstates (p : ℕ) : ℕ := 0xC0010064 + p

/-- `setbits(val, base, length, new)` from the source:
`mask = (1 << length) - 1; return (val & ~(mask << base)) | (new << base)`. -/
def setbits (val : ℤ) (base length : ℕ) (new : ℤ) : ℤ :=
  let mask : ℤ := pyShl 1 length - 1
  pyOr (pyAnd val (pyNot (pyShl mask base))) (pyShl new base)

/-- `setfid(val, new) = setbits(val, 0, 8, new)`. -/
def setfid (val new : ℤ) : ℤ := setbits val 0 8 new

/-- `setdid(val, new) = setbits(val, 8, 6, new)`. -/
def setdid (val new : ℤ) : ℤ := setbits val 8 6 new

/-- `setvid(val, new) = setbits(val, 14, 8, new)`. -/
def setvid (val new : ℤ) : ℤ := setbits val 14 8 new

/-- The FID mask of `pstate2str`: `fid = val & 0xff`. -/
def fidOf (val : ℤ) : ℤ := pyAnd val 0xff

/-- The DID mask of `pstate2str`: `did = (val & 0x3f00) >> 8`. -/
def didOf (val : ℤ) : ℤ := pyShr (pyAnd val 0x3f00) 8

/-- The VID mask of `pstate2str`: `vid = (val & 0x3fc000) >> 14`. -/
def vidOf (val : ℤ) : ℤ := pyShr (pyAnd val 0x3fc000) 14

/-- The enabled test of `pstate2str`: `val & (1 << 63)` is nonzero. -/
def enabledOf (val : ℤ) : Bool := pyAnd val (pyShl 1 63) != 0

/-- The data of the string produced by `pstate2str` (the formatting itself
is out of scope); `ratio` and `vcore` are carried as exact rationals. -/
inductive PStateDesc
  | Disabled
  | Enabled (fid did vid : ℤ) (ratio vcore : ℚ)
deriving DecidableEq

/-- `pstate2str(val)`.  `Except.error ()` models the uncaught
`ZeroDivisionError` that Python raises in `25 * fid / (12.5 * did)` when
the decoded DID field is zero (float division by zero raises in Python). -/
def pstate2str (val : ℤ) : Except Unit PStateDesc :=
  if enabledOf val then
    let fid := fidOf val
    let did := didOf val
    let vid := vidOf val
    if did = 0 then .error ()
    else .ok (.Enabled fid did vid (25 * (fid : ℚ) / (12.5 * (did : ℚ)))
      (1.55 - 0.00625 * (vid : ℚ)))
  else .ok .Disabled

/-- Python `round()` to the nearest integer, ties to even. -/
def pyRound (q : ℚ) : ℤ :=
  let f := ⌊q⌋
  let r := q - f
  if r < 1 / 2 then f
  else if 1 / 2 < r then f + 1
  else if f % 2 = 0 then f else f + 1

/-- `vcore_to_vid(vcore) = int(round((1.55 - vcore) / 0.00625))`. -/
def vcore_to_vid (vcore : ℚ) : ℤ := pyRound ((1.55 - vcore) / 0.00625)

/-- The CLI arguments consumed by the P-State mutation block, with the
argparse defaults of the source (`-1` means "not requested"; argparse
restricts `pstate` to `-1` or `0..7` via `choices=range(8)`). -/
structure Args where
  enable : Bool := false
  disable : Bool := false
  fid : ℤ := -1
  did : ℤ := -1
  vid : ℤ := -1
  vcore : ℚ := -1
  pstate : ℤ := -1

/-- The register transport: per-CPU MSR contents, and the number of CPUs
discovered by `glob.glob('/dev/cpu/[0-9]*/msr')` (CPUs `0 .. ncpus-1`). -/
structure Machine where
  msr : ℕ → ℕ → ℕ
  ncpus : ℕ

/-- One observable operation on the per-CPU register file. -/
inductive MsrOp
  | read (cpu : ℕ) (addr : ℕ)
  | write (cpu : ℕ) (addr : ℕ) (val : ℕ)
deriving DecidableEq

/-- `readmsr(msr, cpu=0)`: `struct.unpack('Q', f.read(8))[0]` always
yields an unsigned 64-bit value. -/
def readmsr (m : Machine) (msr : ℕ) (cpu : ℕ := 0) : ℕ := m.msr cpu msr % 2 ^ 64

/-- `writemsr(msr, val, cpu=-1)`: `struct.pack('Q', val)` raises
(re-raised as `OSError`) unless `0 ≤ val < 2^64`, before any write is
performed (the upper bound is phrased on `val.toNat`, which is equivalent
given `0 ≤ val`); `cpu = -1` broadcasts the write to every discovered CPU. -/
def writemsr (m : Machine) (msr : ℕ) (val : ℤ) (cpu : ℤ := -1) : Except Unit (List MsrOp) :=
  if 0 ≤ val ∧ val.toNat < 2 ^ 64 then
    if cpu = -1 then .ok ((List.range m.ncpus).map fun c => .write c msr val.toNat)
    else .ok [.write cpu.toNat msr val.toNat]
  else .error ()

/-- `if args.enable: new = setbits(new, 63, 1, 1)`. -/
def applyEnable (args : Args) (v : ℤ) : ℤ := if args.enable then setbits v 63 1 1 else v

/-- `if args.disable: new = setbits(new, 63, 1, 0)`. -/
def applyDisable (args : Args) (v : ℤ) : ℤ := if args.disable then setbits v 63 1 0 else v

/-- `if args.fid >= 0: new = setfid(new, args.fid)`. -/
def applyFid (args : Args) (v : ℤ) : ℤ := if 0 ≤ args.fid then setfid v args.fid else v

/-- `if args.did >= 0: new = setdid(new, args.did)`. -/
def applyDid (args : Args) (v : ℤ) : ℤ := if 0 ≤ args.did then setdid v args.did else v

/-- `if args.vid >= 0: new = setvid(new, args.vid)`. -/
def applyVid (args : Args) (v : ℤ) : ℤ := if 0 ≤ args.vid then setvid v args.vid else v

/-- `if args.vcore >= 0: vid = vcore_to_vid(args.vcore); new = setvid(new, vid)`. -/
def applyVcore (args : Args) (v : ℤ) : ℤ :=
  if 0 ≤ args.vcore then setvid v (vcore_to_vid args.vcore) else v

/-- The edits of the mutation block before the vcore edit, in source
order: enable, disable, fid, did, vid. -/
def applyEditsPre (args : Args) (old : ℤ) : ℤ :=
  applyVid args (applyDid args (applyFid args (applyDisable args (applyEnable args old))))

/-- The full FieldEdit application of the mutation block: enable,
disable, fid, did, vid, then vcore. -/
def applyEdits (args : Args) (old : ℤ) : ℤ := applyVcore args (applyEditsPre args old)

/-- The TSC-lock loop: for every discovered CPU `c`,
`writemsr(0xC0010015, readmsr(0xC0010015, c) | (1 << 21), c)`.  The
written value is always `< 2^64`, so this write never raises. -/
def tscLockOps (m : Machine) : List MsrOp :=
  (List.range m.ncpus).flatMap fun c =>
    [.read c 0xC0010015, .write c 0xC0010015 (readmsr m 0xC0010015 c ||| 1 <<< 21)]

/-- The trace of the mutation block from the first read up to (and
including) the TSC-lock check and, when the lock bit is unset, the
TSC-lock loop: everything the block does before the broadcast write of
the new value. -/
def pstatePre (args : Args) (m : Machine) : List MsrOp :=
  [MsrOp.read 0 (pstates args.pstate.toNat), MsrOp.read 0 0xC0010015] ++
    (if pyAnd (readmsr m 0xC0010015) (pyShl 1 21) = 0 then tscLockOps m else [])

/-- The `if args.pstate >= 0:` block of the source: read the current
value from CPU 0, print it (`pstate2str` may raise on DID = 0), apply the
edits; when the value changed, read the TSC-lock register from CPU 0,
lock the TSC frequency on every CPU if bit 21 is unset, print the new
value (`pstate2str` again), then broadcast-write the new value.  Returns
the transport trace and whether the block completed or raised. -/
def runPStateBlock (args : Args) (m : Machine) : List MsrOp × Except Unit Unit :=
  if 0 ≤ args.pstate then
    match pstate2str (readmsr m (pstates args.pstate.toNat)) with
    | .error e => ([.read 0 (pstates args.pstate.toNat)], .error e)
    | .ok _ =>
      if applyEdits args (readmsr m (pstates args.pstate.toNat))
          = ((readmsr m (pstates args.pstate.toNat) : ℕ) : ℤ) then
        ([.read 0 (pstates args.pstate.toNat)], .ok ())
      else
        match pstate2str (applyEdits args (readmsr m (pstates args.pstate.toNat))) with
        | .error e => (pstatePre args m, .error e)
        | .ok _ =>
          match writemsr m (pstates args.pstate.toNat)
              (applyEdits args (readmsr m (pstates args.pstate.toNat))) with
          | .error e => (pstatePre args m, .error e)
          | .ok ws => (pstatePre args m ++ ws, .ok ())
  else ([], .ok ())

/-- The C6 core-control bit mask `(1 << 22) | (1 << 14) | (1 << 6)`. -/
def c6CoreMask : ℤ := pyOr (pyOr (pyShl 1 22) (pyShl 1 14)) (pyShl 1 6)

/-- The `if args.c6_enable:` block:
`writemsr(0xC0010292, readmsr(0xC0010292) | (1 << 32))` then
`writemsr(0xC0010296, readmsr(0xC0010296) | ((1 << 22) | (1 << 14) | (1 << 6)))`. -/
def runC6Enable (m : Machine) : List MsrOp × Except Unit Unit :=
  match writemsr m 0xC0010292 (pyOr (readmsr m 0xC0010292) (pyShl 1 32)) with
  | .error e => ([.read 0 0xC0010292], .error e)
  | .ok w1 =>
    match writemsr m 0xC0010296 (pyOr (readmsr m 0xC0010296) c6CoreMask) with
    | .error e => ([.read 0 0xC0010292] ++ w1 ++ [.read 0 0xC0010296], .error e)
    | .ok w2 => ([.read 0 0xC0010292] ++ w1 ++ [.read 0 0xC0010296] ++ w2, .ok ())

/-- The `if args.c6_disable:` block:
`writemsr(0xC0010292, readmsr(0xC0010292) & ~(1 << 32))` then
`writemsr(0xC0010296, readmsr(0xC0010296) & ~((1 << 22) | (1 << 14) | (1 << 6)))`. -/
def runC6Disable (m : Machine) : List MsrOp × Except Unit Unit :=
  match writemsr m 0xC0010292 (pyAnd (readmsr m 0xC0010292) (pyNot (pyShl 1 32))) with
  | .error e => ([.read 0 0xC0010292], .error e)
  | .ok w1 =>
    match writemsr m 0xC0010296 (pyAnd (readmsr m 0xC0010296) (pyNot c6CoreMask)) with
    | .error e => ([.read 0 0xC0010292] ++ w1 ++ [.read 0 0xC0010296], .error e)
    | .ok w2 => ([.read 0 0xC0010292] ++ w1 ++ [.read 0 0xC0010296] ++ w2, .ok ())

/-- A one-CPU machine whose MSRs all read zero. -/
def mzero : Machine := ⟨fun _ _ => 0, 1⟩

/-- Concrete request: `--pstate 0 --enable`. -/
def argsEnable : Args := { enable := true, pstate := 0 }

/-- Concrete request: `--pstate 0` with no field edits. -/
def argsNoop : Args := { pstate := 0 }

/-- Concrete request: `--pstate 0 --vid 5 --vcore 2` (a vcore above 1.55,
whose VID rounds to the negative value `-72`). -/
def argsVcore2 : Args := { vid := 5, vcore := 2, pstate := 0 }

/-- Concrete request: `--pstate 0 --vid 5 --vcore 1.1`. -/
def argsVcore11 : Args := { vid := 5, vcore := 1.1, pstate := 0 }

/-- `setbits` on non-negative inputs, expressed over `ℕ`. -/
def natSetbits (v base length new : ℕ) : ℕ :=
  natAndNot v ((2 ^ length - 1) <<< base) ||| (new <<< base)

/-- Encoding `(enabled, fid, did, vid)` into a RegisterValue, in the edit
order of the mutation block: bit 63 via `setbits`, then `setfid`,
`setdid`, `setvid`. -/
def encode (val : ℤ) (e : Bool) (fid did vid : ℤ) : ℤ :=
  setvid (setdid (setfid (setbits val 63 1 (if e then 1 else 0)) fid) did) vid

lemma natAndNot_testBit (m n i : ℕ) :
    (natAndNot m n).testBit i = (m.testBit i && !(n.testBit i)) := by
  simp only [natAndNot, Nat.testBit_xor, Nat.testBit_and]
  cases m.testBit i <;> cases n.testBit i <;> rfl

lemma pyAnd_ofNat (a b : ℕ) : pyAnd (a : ℤ) (b : ℤ) = ((a &&& b : ℕ) : ℤ) := rfl

lemma pyOr_ofNat (a b : ℕ) : pyOr (a : ℤ) (b : ℤ) = ((a ||| b : ℕ) : ℤ) := rfl

lemma pyAnd_ofNat_negSucc (a b : ℕ) :
    pyAnd (a : ℤ) (Int.negSucc b) = ((natAndNot a b : ℕ) : ℤ) := rfl

lemma pyOr_ofNat_negSucc (a b : ℕ) :
    pyOr (a : ℤ) (Int.negSucc b) = Int.negSucc (natAndNot b a) := rfl

lemma pyNot_ofNat (a : ℕ) : pyNot (a : ℤ) = Int.negSucc a := by
  rw [pyNot, Int.negSucc_eq]

lemma pyShl_ofNat (a n : ℕ) : pyShl (a : ℤ) n = ((a <<< n : ℕ) : ℤ) := by
  rw [pyShl, Nat.shiftLeft_eq]
  push_cast
  ring

lemma pyShr_ofNat (a n : ℕ) : pyShr (a : ℤ) n = ((a >>> n : ℕ) : ℤ) := by
  rw [pyShr, Nat.shiftRight_eq_div_pow, Int.ofNat_fdiv]
  norm_num

lemma intTestBit_ofNat (a i : ℕ) : intTestBit (a : ℤ) i = a.testBit i := rfl

lemma setbits_ofNat (v b l n : ℕ) :
    setbits (v : ℤ) b l (n : ℤ) = ((natSetbits v b l n : ℕ) : ℤ) := by
  rw [setbits, natSetbits]
  have h1 : (pyShl 1 l - 1 : ℤ) = ((2 ^ l - 1 : ℕ) : ℤ) := by
    rw [show (1 : ℤ) = ((1 : ℕ) : ℤ) from rfl, pyShl_ofNat, Nat.one_shiftLeft]
    push_cast [Nat.one_le_two_pow]
    ring
  rw [h1, pyShl_ofNat, pyNot_ofNat, pyAnd_ofNat_negSucc, pyShl_ofNat, pyOr_ofNat]

lemma natSetbits_testBit (v b l n i : ℕ) (hn : n < 2 ^ l) :
    (natSetbits v b l n).testBit i =
      if b ≤ i ∧ i < b + l then n.testBit (i - b) else v.testBit i := by
  simp only [natSetbits, Nat.testBit_or, natAndNot_testBit, Nat.testBit_shiftLeft,
    Nat.testBit_two_pow_sub_one]
  by_cases hb : b ≤ i
  · by_cases hl : i < b + l
    · have hd : i - b < l := by omega
      simp [hb, hl, hd]
    · have hd : ¬(i - b < l) := by omega
      have hz : n.testBit (i - b) = false :=
        Nat.testBit_lt_two_pow (lt_of_lt_of_le hn (Nat.pow_le_pow_right (by norm_num) (by omega)))
      simp [hb, hl, hd, hz]
  · have hl : ¬(b ≤ i ∧ i < b + l) := by omega
    simp [hb, hl]

lemma natSetbits_testBit_out (v b l n i : ℕ) (hn : n < 2 ^ l)
    (h : i < b ∨ b + l ≤ i) : (natSetbits v b l n).testBit i = v.testBit i := by
  rw [natSetbits_testBit v b l n i hn, if_neg (by omega)]

lemma natSetbits_extract (v b l n : ℕ) (hn : n < 2 ^ l) :
    (natSetbits v b l n &&& ((2 ^ l - 1) <<< b)) >>> b = n := by
  apply Nat.eq_of_testBit_eq
  intro i
  rw [Nat.testBit_shiftRight, Nat.testBit_and, natSetbits_testBit v b l n _ hn]
  simp only [Nat.testBit_shiftLeft, Nat.testBit_two_pow_sub_one]
  by_cases hil : i < l
  · have h1 : b ≤ b + i ∧ b + i < b + l := by omega
    have h2 : b + i - b = i := by omega
    simp [h1, h2, hil]
  · have hz : n.testBit i = false :=
      Nat.testBit_lt_two_pow (lt_of_lt_of_le hn (Nat.pow_le_pow_right (by norm_num) (by omega)))
    simp [hil, hz]

lemma fidOf_ofNat (w : ℕ) : fidOf (w : ℤ) = ((w &&& 0xff : ℕ) : ℤ) := rfl

lemma didOf_ofNat (w : ℕ) : didOf (w : ℤ) = (((w &&& 0x3f00) >>> 8 : ℕ) : ℤ) := by
  rw [didOf, show (0x3f00 : ℤ) = ((0x3f00 : ℕ) : ℤ) from rfl, pyAnd_ofNat, pyShr_ofNat]

lemma vidOf_ofNat (w : ℕ) : vidOf (w : ℤ) = (((w &&& 0x3fc000) >>> 14 : ℕ) : ℤ) := by
  rw [vidOf, show (0x3fc000 : ℤ) = ((0x3fc000 : ℕ) : ℤ) from rfl, pyAnd_ofNat, pyShr_ofNat]

lemma nat_and_two_pow (w n : ℕ) : w &&& 2 ^ n = if w.testBit n then 2 ^ n else 0 := by
  apply Nat.eq_of_testBit_eq
  intro i
  rw [Nat.testBit_and]
  by_cases hi : n = i
  · subst hi
    rw [Nat.testBit_two_pow_self, Bool.and_true]
    cases h : w.testBit n
    · rw [if_neg (by simp [h])]
      exact (Nat.zero_testBit n).symm
    · rw [if_pos (by simp [h])]
      exact (@Nat.testBit_two_pow_self n).symm
  · have h2 : Nat.testBit (2 ^ n) i = false := Nat.testBit_two_pow_of_ne hi
    rw [h2, Bool.and_false]
    cases h : w.testBit n
    · rw [if_neg (by simp [h])]
      exact (Nat.zero_testBit i).symm
    · rw [if_pos (by simp [h])]
      exact h2.symm

lemma enabledOf_ofNat (w : ℕ) : enabledOf (w : ℤ) = w.testBit 63 := by
  have h1 : enabledOf (w : ℤ) = (((w &&& 2 ^ 63 : ℕ) : ℤ) != 0) := by
    rw [enabledOf, show (1 : ℤ) = ((1 : ℕ) : ℤ) from rfl, pyShl_ofNat, pyAnd_ofNat,
      Nat.one_shiftLeft]
  rw [h1, nat_and_two_pow]
  cases h : w.testBit 63 <;> simp [h]

lemma pyAnd_shl21_eq_zero_iff (x : ℕ) :
    pyAnd (x : ℤ) (pyShl 1 21) = 0 ↔ x.testBit 21 = false := by
  rw [show (1 : ℤ) = ((1 : ℕ) : ℤ) from rfl, pyShl_ofNat, pyAnd_ofNat, Nat.one_shiftLeft,
    nat_and_two_pow]
  cases h : x.testBit 21 <;> simp [h]

lemma natEncode_fid (v e f d vd : ℕ) (hf : f < 2 ^ 8) (hd : d < 2 ^ 6) (hv : vd < 2 ^ 8) :
    natSetbits (natSetbits (natSetbits (natSetbits v 63 1 e) 0 8 f) 8 6 d) 14 8 vd &&& 0xff
      = f := by
  have hmask : (0xff : ℕ) = 2 ^ 8 - 1 := by norm_num
  apply Nat.eq_of_testBit_eq
  intro i
  rw [Nat.testBit_and, hmask, Nat.testBit_two_pow_sub_one]
  by_cases h : i < 8
  · rw [natSetbits_testBit_out _ 14 8 _ i hv (by omega),
      natSetbits_testBit_out _ 8 6 _ i hd (by omega),
      natSetbits_testBit _ 0 8 _ i hf, if_pos (by omega)]
    simp [h]
  · have hz : f.testBit i = false :=
      Nat.testBit_lt_two_pow (lt_of_lt_of_le hf (Nat.pow_le_pow_right (by norm_num) (by omega)))
    simp [h, hz]

lemma natEncode_did (v e f d vd : ℕ) (hd : d < 2 ^ 6) (hv : vd < 2 ^ 8) :
    (natSetbits (natSetbits (natSetbits (natSetbits v 63 1 e) 0 8 f) 8 6 d) 14 8 vd
      &&& 0x3f00) >>> 8 = d := by
  have hmask : (0x3f00 : ℕ) = (2 ^ 6 - 1) <<< 8 := by norm_num [Nat.shiftLeft_eq]
  apply Nat.eq_of_testBit_eq
  intro i
  rw [Nat.testBit_shiftRight, Nat.testBit_and, hmask, Nat.testBit_shiftLeft,
    Nat.testBit_two_pow_sub_one]
  by_cases h : i < 6
  · rw [natSetbits_testBit_out _ 14 8 _ (8 + i) hv (by omega),
      natSetbits_testBit _ 8 6 _ (8 + i) hd, if_pos (by omega)]
    simp [show 8 + i - 8 = i by omega, h]
  · have hz : d.testBit i = false :=
      Nat.testBit_lt_two_pow (lt_of_lt_of_le hd (Nat.pow_le_pow_right (by norm_num) (by omega)))
    simp [show 8 + i - 8 = i by omega, h, hz]

lemma natEncode_vid (v e f d vd : ℕ) (hv : vd < 2 ^ 8) :
    (natSetbits (natSetbits (natSetbits (natSetbits v 63 1 e) 0 8 f) 8 6 d) 14 8 vd
      &&& 0x3fc000) >>> 14 = vd := by
  have hmask : (0x3fc000 : ℕ) = (2 ^ 8 - 1) <<< 14 := by norm_num [Nat.shiftLeft_eq]
  rw [hmask]
  exact natSetbits_extract _ 14 8 vd hv

lemma natEncode_enabled (v e f d vd : ℕ) (he : e < 2) (hf : f < 2 ^ 8) (hd : d < 2 ^ 6)
    (hv : vd < 2 ^ 8) :
    (natSetbits (natSetbits (natSetbits (natSetbits v 63 1 e) 0 8 f) 8 6 d) 14 8 vd).testBit 63
      = e.testBit 0 := by
  rw [natSetbits_testBit_out _ 14 8 _ 63 hv (by omega),
    natSetbits_testBit_out _ 8 6 _ 63 hd (by omega),
    natSetbits_testBit_out _ 0 8 _ 63 hf (by omega),
    natSetbits_testBit _ 63 1 _ 63 he, if_pos (by omega)]

lemma encode_ofNat (v f d vd : ℕ) (e : Bool) :
    encode (v : ℤ) e (f : ℤ) (d : ℤ) (vd : ℤ) =
      ((natSetbits (natSetbits (natSetbits (natSetbits v 63 1 (if e then 1 else 0)) 0 8 f)
        8 6 d) 14 8 vd : ℕ) : ℤ) := by
  rw [encode, show (if e then (1 : ℤ) else 0) = (((if e then 1 else 0 : ℕ)) : ℤ) by
      cases e <;> rfl,
    setbits_ofNat, setfid, setbits_ofNat, setdid, setbits_ofNat, setvid, setbits_ofNat]

lemma pyRound_intCast (n : ℤ) : pyRound ((n : ℤ) : ℚ) = n := by
  unfold pyRound
  norm_num

lemma pyMask_eq (l : ℕ) : (pyShl 1 l - 1 : ℤ) = ((2 ^ l - 1 : ℕ) : ℤ) := by
  rw [show (1 : ℤ) = ((1 : ℕ) : ℤ) from rfl, pyShl_ofNat, Nat.one_shiftLeft]
  push_cast [Nat.one_le_two_pow]
  ring

lemma setbits_nonneg (b l : ℕ) {val new : ℤ} (hval : 0 ≤ val) (hnew : 0 ≤ new) :
    0 ≤ setbits val b l new := by
  obtain ⟨v, rfl⟩ := Int.eq_ofNat_of_zero_le hval
  obtain ⟨n, rfl⟩ := Int.eq_ofNat_of_zero_le hnew
  rw [setbits_ofNat]
  exact Int.natCast_nonneg _

lemma setbits_neg (b l : ℕ) {val new : ℤ} (hval : 0 ≤ val) (hnew : new < 0) :
    setbits val b l new < 0 := by
  obtain ⟨v, rfl⟩ := Int.eq_ofNat_of_zero_le hval
  have hshl : pyShl new b < 0 := by
    rw [pyShl]
    exact mul_neg_of_neg_of_pos hnew (by positivity)
  obtain ⟨k, hk⟩ := Int.eq_negSucc_of_lt_zero hshl
  show pyOr (pyAnd ((v : ℕ) : ℤ) (pyNot (pyShl (pyShl 1 l - 1) b))) (pyShl new b) < 0
  rw [hk, pyMask_eq, pyShl_ofNat, pyNot_ofNat, pyAnd_ofNat_negSucc, pyOr_ofNat_negSucc]
  exact Int.negSucc_lt_zero _

lemma applyEnable_nonneg (args : Args) {v : ℤ} (h : 0 ≤ v) : 0 ≤ applyEnable args v := by
  unfold applyEnable
  split_ifs
  · exact setbits_nonneg 63 1 h (by norm_num)
  · exact h

lemma applyDisable_nonneg (args : Args) {v : ℤ} (h : 0 ≤ v) : 0 ≤ applyDisable args v := by
  unfold applyDisable
  split_ifs
  · exact setbits_nonneg 63 1 h (by norm_num)
  · exact h

lemma applyFid_nonneg (args : Args) {v : ℤ} (h : 0 ≤ v) : 0 ≤ applyFid args v := by
  unfold applyFid
  split_ifs with hc
  · rw [setfid]
    exact setbits_nonneg 0 8 h hc
  · exact h

lemma applyDid_nonneg (args : Args) {v : ℤ} (h : 0 ≤ v) : 0 ≤ applyDid args v := by
  unfold applyDid
  split_ifs with hc
  · rw [setdid]
    exact setbits_nonneg 8 6 h hc
  · exact h

lemma applyVid_nonneg (args : Args) {v : ℤ} (h : 0 ≤ v) : 0 ≤ applyVid args v := by
  unfold applyVid
  split_ifs with hc
  · rw [setvid]
    exact setbits_nonneg 14 8 h hc
  · exact h

lemma applyEditsPre_nonneg (args : Args) {old : ℤ} (h : 0 ≤ old) :
    0 ≤ applyEditsPre args old :=
  applyVid_nonneg _ (applyDid_nonneg _ (applyFid_nonneg _ (applyDisable_nonneg _
    (applyEnable_nonneg _ h))))

lemma applyEdits_neg_of_bad_vcore (args : Args) {old : ℤ} (hold : 0 ≤ old)
    (hvc : 0 ≤ args.vcore) (hneg : vcore_to_vid args.vcore < 0) :
    applyEdits args old < 0 := by
  rw [applyEdits, applyVcore, if_pos hvc, setvid]
  exact setbits_neg 14 8 (applyEditsPre_nonneg args hold) hneg

lemma tscLockOps_write_mem (m : Machine) {c : ℕ} (hc : c < m.ncpus) :
    MsrOp.write c 0xC0010015 (readmsr m 0xC0010015 c ||| 1 <<< 21) ∈ tscLockOps m := by
  unfold tscLockOps
  rw [List.mem_flatMap]
  exact ⟨c, by simpa using hc, by simp⟩

lemma tscLockOps_write_addr (m : Machine) {c a v : ℕ}
    (h : MsrOp.write c a v ∈ tscLockOps m) : a = 0xC0010015 := by
  unfold tscLockOps at h
  rw [List.mem_flatMap] at h
  obtain ⟨x, -, hx⟩ := h
  simp at hx
  exact hx.2.1

lemma lock_value_testBit (x : ℕ) : (x ||| 1 <<< 21).testBit 21 = true := by
  rw [Nat.testBit_or, show (1 <<< 21 : ℕ).testBit 21 = true by decide, Bool.or_true]

lemma writemsr_broadcast_ok {m : Machine} {a : ℕ} {val : ℤ} {ws : List MsrOp}
    (h : writemsr m a val = .ok ws) :
    ws = (List.range m.ncpus).map fun c => MsrOp.write c a val.toNat := by
  unfold writemsr at h
  by_cases h1 : 0 ≤ val ∧ val.toNat < 2 ^ 64
  · rw [if_pos h1, if_pos rfl] at h
    injection h with h3
    exact h3.symm
  · rw [if_neg h1] at h
    exact Except.noConfusion h

lemma writemsr_neg_error {m : Machine} {a : ℕ} {val : ℤ} (h : val < 0) :
    writemsr m a val = .error () := by
  unfold writemsr
  rw [if_neg fun hc => (not_le.mpr h) hc.1]

/-- C1: round-trip of the P-State codec.  For every enabled flag, every
`fid` fitting in 8 bits, `did` fitting in 6 bits, `vid` fitting in 8 bits
and every starting 64-bit RegisterValue, encoding via `setbits` (bit 63),
`setfid`, `setdid`, `setvid` and decoding with the bit masks of
`pstate2str` yields exactly the same `(enabled, fid, did, vid)`. -/
theorem claim1_roundtrip (val fid did vid : ℕ) (e : Bool) (_hval : val < 2 ^ 64)
    (hf : fid < 2 ^ 8) (hd : did < 2 ^ 6) (hv : vid < 2 ^ 8) :
    fidOf (encode (val : ℤ) e (fid : ℤ) (did : ℤ) (vid : ℤ)) = (fid : ℤ) ∧
    didOf (encode (val : ℤ) e (fid : ℤ) (did : ℤ) (vid : ℤ)) = (did : ℤ) ∧
    vidOf (encode (val : ℤ) e (fid : ℤ) (did : ℤ) (vid : ℤ)) = (vid : ℤ) ∧
    enabledOf (encode (val : ℤ) e (fid : ℤ) (did : ℤ) (vid : ℤ)) = e := by
  have he : (if e then 1 else 0 : ℕ) < 2 := by cases e <;> norm_num
  rw [encode_ofNat, fidOf_ofNat, didOf_ofNat, vidOf_ofNat, enabledOf_ofNat]
  refine ⟨?_, ?_, ?_, ?_⟩
  · exact_mod_cast natEncode_fid val _ fid did vid hf hd hv
  · exact_mod_cast natEncode_did val _ fid did vid hd hv
  · exact_mod_cast natEncode_vid val _ fid did vid hv
  · rw [natEncode_enabled val _ fid did vid he hf hd hv]
    cases e <;> rfl

/-- Witness for C1 at `val = 0`, `enabled = true`, `fid = 5`, `did = 8`,
`vid = 72`. -/
theorem claim1_roundtrip_witness :
    ((0 : ℕ) < 2 ^ 64 ∧ (5 : ℕ) < 2 ^ 8 ∧ (8 : ℕ) < 2 ^ 6 ∧ (72 : ℕ) < 2 ^ 8) ∧
    (fidOf (encode ((0 : ℕ) : ℤ) true ((5 : ℕ) : ℤ) ((8 : ℕ) : ℤ) ((72 : ℕ) : ℤ))
        = ((5 : ℕ) : ℤ) ∧
      didOf (encode ((0 : ℕ) : ℤ) true ((5 : ℕ) : ℤ) ((8 : ℕ) : ℤ) ((72 : ℕ) : ℤ))
        = ((8 : ℕ) : ℤ) ∧
      vidOf (encode ((0 : ℕ) : ℤ) true ((5 : ℕ) : ℤ) ((8 : ℕ) : ℤ) ((72 : ℕ) : ℤ))
        = ((72 : ℕ) : ℤ) ∧
      enabledOf (encode ((0 : ℕ) : ℤ) true ((5 : ℕ) : ℤ) ((8 : ℕ) : ℤ) ((72 : ℕ) : ℤ))
        = true) :=
  ⟨⟨by norm_num, by norm_num, by norm_num, by norm_num⟩,
    claim1_roundtrip 0 5 8 72 true (by norm_num) (by norm_num) (by norm_num) (by norm_num)⟩

/-- C5: field isolation.  For every 64-bit value, `setfid` with an 8-bit
`new` leaves every bit outside 0-7 unchanged (in particular DID, VID and
the enabled bit); `setdid` with a 6-bit `new` leaves every bit outside
8-13 unchanged; `setvid` with an 8-bit `new` leaves every bit outside
14-21 unchanged. -/
theorem claim5_field_isolation (val f d vd : ℕ) (_hval : val < 2 ^ 64)
    (hf : f < 2 ^ 8) (hd : d < 2 ^ 6) (hv : vd < 2 ^ 8) :
    (∀ i, 8 ≤ i → intTestBit (setfid (val : ℤ) (f : ℤ)) i = intTestBit (val : ℤ) i) ∧
    (∀ i, i < 8 ∨ 14 ≤ i → intTestBit (setdid (val : ℤ) (d : ℤ)) i = intTestBit (val : ℤ) i) ∧
    (∀ i, i < 14 ∨ 22 ≤ i →
      intTestBit (setvid (val : ℤ) (vd : ℤ)) i = intTestBit (val : ℤ) i) := by
  refine ⟨fun i hi => ?_, fun i hi => ?_, fun i hi => ?_⟩
  · rw [setfid, setbits_ofNat, intTestBit_ofNat, intTestBit_ofNat,
      natSetbits_testBit_out val 0 8 f i hf (by omega)]
  · rw [setdid, setbits_ofNat, intTestBit_ofNat, intTestBit_ofNat,
      natSetbits_testBit_out val 8 6 d i hd (by omega)]
  · rw [setvid, setbits_ofNat, intTestBit_ofNat, intTestBit_ofNat,
      natSetbits_testBit_out val 14 8 vd i hv (by omega)]

/-- Witness for C5 at `val = 2^63 + 0x3ffff`, `f = 255`, `d = 63`, `vd = 255`. -/
theorem claim5_field_isolation_witness :
    ((2 ^ 63 + 0x3ffff : ℕ) < 2 ^ 64 ∧ (255 : ℕ) < 2 ^ 8 ∧ (63 : ℕ) < 2 ^ 6 ∧
      (255 : ℕ) < 2 ^ 8) ∧
    ((∀ i, 8 ≤ i → intTestBit (setfid ((2 ^ 63 + 0x3ffff : ℕ) : ℤ) ((255 : ℕ) : ℤ)) i
        = intTestBit ((2 ^ 63 + 0x3ffff : ℕ) : ℤ) i) ∧
      (∀ i, i < 8 ∨ 14 ≤ i → intTestBit (setdid ((2 ^ 63 + 0x3ffff : ℕ) : ℤ) ((63 : ℕ) : ℤ)) i
        = intTestBit ((2 ^ 63 + 0x3ffff : ℕ) : ℤ) i) ∧
      (∀ i, i < 14 ∨ 22 ≤ i → intTestBit (setvid ((2 ^ 63 + 0x3ffff : ℕ) : ℤ) ((255 : ℕ) : ℤ)) i
        = intTestBit ((2 ^ 63 + 0x3ffff : ℕ) : ℤ) i)) :=
  ⟨⟨by norm_num, by norm_num, by norm_num, by norm_num⟩,
    claim5_field_isolation (2 ^ 63 + 0x3ffff) 255 63 255 (by norm_num) (by norm_num)
      (by norm_num) (by norm_num)⟩

/-- C8: `vcore_to_vid` inverts the vid-to-voltage formula: for every vid
in `[0, 255]`, `vcore_to_vid (1.55 - 0.00625 * vid) = vid`. -/
theorem claim8_vcore_vid_inverse (vid : ℕ) (_hv : vid ≤ 255) :
    vcore_to_vid (1.55 - 0.00625 * (vid : ℚ)) = (vid : ℤ) := by
  have h : ((1.55 : ℚ) - (1.55 - 0.00625 * (vid : ℚ))) / 0.00625 = (((vid : ℕ) : ℤ) : ℚ) := by
    push_cast
    field_simp
  rw [vcore_to_vid, h, pyRound_intCast]

/-- Witness for C8 at `vid = 72`; the input voltage is exactly the `1.1`
of the spec scenario, and the result is `72 = 0x48`. -/
theorem claim8_vcore_vid_inverse_witness :
    ((72 : ℕ) ≤ 255 ∧ (1.55 - 0.00625 * ((72 : ℕ) : ℚ)) = 1.1) ∧
    vcore_to_vid (1.55 - 0.00625 * ((72 : ℕ) : ℚ)) = ((72 : ℕ) : ℤ) :=
  ⟨⟨by norm_num, by norm_num⟩, claim8_vcore_vid_inverse 72 (by norm_num)⟩

lemma pstatePre_write_addr (args : Args) (m : Machine) {c a v : ℕ}
    (h : MsrOp.write c a v ∈ pstatePre args m) : a = 0xC0010015 := by
  unfold pstatePre at h
  rcases List.mem_append.mp h with h | h
  · simp at h
  · by_cases hc : pyAnd ((readmsr m 0xC0010015 : ℕ) : ℤ) (pyShl 1 21) = 0
    · rw [if_pos hc] at h
      exact tscLockOps_write_addr m h
    · rw [if_neg hc] at h
      simp at h

lemma runPStateBlock_mut_shape (args : Args) (m : Machine) (hp : 0 ≤ args.pstate)
    (d : PStateDesc)
    (hok : pstate2str ((readmsr m (pstates args.pstate.toNat) : ℕ) : ℤ) = .ok d)
    (hne : applyEdits args ((readmsr m (pstates args.pstate.toNat) : ℕ) : ℤ)
      ≠ ((readmsr m (pstates args.pstate.toNat) : ℕ) : ℤ)) :
    ∃ rest, (runPStateBlock args m).1 = pstatePre args m ++ rest ∧
      ∀ op ∈ rest, ∃ c v, op = MsrOp.write c (pstates args.pstate.toNat) v := by
  rw [runPStateBlock, if_pos hp, hok]
  rw [if_neg hne]
  cases hps2 : pstate2str (applyEdits args ((readmsr m (pstates args.pstate.toNat) : ℕ) : ℤ))
  case error e =>
    exact ⟨[], by simp⟩
  case ok d2 =>
    cases hwm : writemsr m (pstates args.pstate.toNat)
        (applyEdits args ((readmsr m (pstates args.pstate.toNat) : ℕ) : ℤ))
    case error e =>
      exact ⟨[], by simp⟩
    case ok ws =>
      refine ⟨ws, rfl, ?_⟩
      intro op hop
      rw [writemsr_broadcast_ok hwm] at hop
      rcases List.mem_map.mp hop with ⟨c, -, rfl⟩
      exact ⟨c, _, rfl⟩

lemma runPStateBlock_err_of_neg (args : Args) (m : Machine) (hp : 0 ≤ args.pstate)
    (hneg : applyEdits args ((readmsr m (pstates args.pstate.toNat) : ℕ) : ℤ) < 0) :
    (runPStateBlock args m).2 = .error () ∧
    ∀ c v, MsrOp.write c (pstates args.pstate.toNat) v ∉ (runPStateBlock args m).1 := by
  have hne : applyEdits args ((readmsr m (pstates args.pstate.toNat) : ℕ) : ℤ)
      ≠ ((readmsr m (pstates args.pstate.toNat) : ℕ) : ℤ) := by
    intro hEq
    rw [hEq] at hneg
    exact absurd (Int.natCast_nonneg _) (not_le.mpr hneg)
  have haddr : pstates args.pstate.toNat ≠ 0xC0010015 := by
    unfold pstates
    omega
  have hpre : ∀ c v, MsrOp.write c (pstates args.pstate.toNat) v ∉ pstatePre args m := by
    intro c v hmem
    exact haddr (pstatePre_write_addr args m hmem)
  rw [runPStateBlock, if_pos hp]
  cases hps : pstate2str ((readmsr m (pstates args.pstate.toNat) : ℕ) : ℤ)
  case error e =>
    cases e
    refine ⟨rfl, fun c v hmem => ?_⟩
    simp at hmem
  case ok d =>
    rw [if_neg hne]
    cases hps2 : pstate2str (applyEdits args ((readmsr m (pstates args.pstate.toNat) : ℕ) : ℤ))
    case error e =>
      cases e
      exact ⟨rfl, fun c v hmem => hpre c v hmem⟩
    case ok d2 =>
      rw [writemsr_neg_error hneg]
      exact ⟨rfl, fun c v hmem => hpre c v hmem⟩

/-- C10: `setbits` does not mask its `new` argument, so field isolation
fails without the fits-in-length precondition: `setfid` with `new = 256`
sets bit 8 and corrupts the DID field, `setvid` with `new = 256` (a value
`vcore_to_vid` produces for the low vcore `-0.05`) sets bit 22, and
`setvid` with a large `new` reaches the enabled bit 63. -/
theorem claim10_setbits_unmasked :
    2 ^ 8 ≤ 256 ∧
    setfid 0 256 = 256 ∧
    didOf (setfid 0 256) = 1 ∧ didOf 0 = 0 ∧
    vcore_to_vid (-0.05) = 256 ∧
    intTestBit (setvid 0 256) 22 = true ∧
    intTestBit (setvid 0 (2 ^ 49)) 63 = true := by
  have h : ((1.55 : ℚ) - (-0.05)) / 0.00625 = (((256 : ℤ)) : ℚ) := by norm_num
  refine ⟨by norm_num, by decide, by decide, by decide, ?_, by decide, by decide⟩
  rw [vcore_to_vid, h, pyRound_intCast]

/-- C4: idempotence of the mutation block.  When the requested FieldEdit
applied to the current RegisterValue produces a value equal to the
original, the block performs zero MSR writes, and it does not even read
the TSC-lock register 0xC0010015. -/
theorem claim4_noop_no_writes (args : Args) (m : Machine)
    (hp : 0 ≤ args.pstate) (_hp8 : args.pstate < 8)
    (heq : applyEdits args ((readmsr m (pstates args.pstate.toNat) : ℕ) : ℤ)
      = ((readmsr m (pstates args.pstate.toNat) : ℕ) : ℤ)) :
    (∀ c a v, MsrOp.write c a v ∉ (runPStateBlock args m).1) ∧
    (∀ c, MsrOp.read c 0xC0010015 ∉ (runPStateBlock args m).1) := by
  have haddr : pstates args.pstate.toNat ≠ 0xC0010015 := by
    unfold pstates
    omega
  rw [runPStateBlock, if_pos hp]
  cases hps : pstate2str ((readmsr m (pstates args.pstate.toNat) : ℕ) : ℤ)
  case error e =>
    refine ⟨fun c a v hmem => ?_, fun c hmem => ?_⟩
    · simp at hmem
    · rw [List.mem_singleton] at hmem
      injection hmem with h1 h2
      exact haddr h2.symm
  case ok d =>
    rw [if_pos heq]
    refine ⟨fun c a v hmem => ?_, fun c hmem => ?_⟩
    · simp at hmem
    · rw [List.mem_singleton] at hmem
      injection hmem with h1 h2
      exact haddr h2.symm

/-- Witness for C4: request `--pstate 0` with no edits on the all-zero
machine; the edit application is the identity and no write or TSC-lock
read appears in the trace. -/
theorem claim4_noop_no_writes_witness :
    ((0 : ℤ) ≤ argsNoop.pstate ∧ argsNoop.pstate < 8 ∧
      applyEdits argsNoop ((readmsr mzero (pstates argsNoop.pstate.toNat) : ℕ) : ℤ)
        = ((readmsr mzero (pstates argsNoop.pstate.toNat) : ℕ) : ℤ)) ∧
    ((∀ c a v, MsrOp.write c a v ∉ (runPStateBlock argsNoop mzero).1) ∧
      (∀ c, MsrOp.read c 0xC0010015 ∉ (runPStateBlock argsNoop mzero).1)) :=
  ⟨⟨by decide, by decide, by decide⟩,
    claim4_noop_no_writes argsNoop mzero (by decide) (by decide) (by decide)⟩

/-- C7 (amended): decoding an enabled P-State whose DID field is zero is
fatal: `pstate2str` raises an uncaught `ZeroDivisionError` computing the
ratio, aborting the invocation; no `InvalidEncoding` warning exists in
the code. -/
theorem claim7_did_zero_fatal (val : ℕ) (_hval : val < 2 ^ 64)
    (hen : enabledOf (val : ℤ) = true) (hdid : didOf (val : ℤ) = 0) :
    pstate2str (val : ℤ) = .error () := by
  simp [pstate2str, hen, hdid]

/-- Witness for C7 (amended) at the RegisterValue `2^63` (enabled, all
fields zero). -/
theorem claim7_did_zero_fatal_witness :
    ((2 ^ 63 : ℕ) < 2 ^ 64 ∧ enabledOf ((2 ^ 63 : ℕ) : ℤ) = true ∧
      didOf ((2 ^ 63 : ℕ) : ℤ) = 0) ∧
    pstate2str ((2 ^ 63 : ℕ) : ℤ) = .error () :=
  ⟨⟨by norm_num, by decide, by decide⟩,
    claim7_did_zero_fatal (2 ^ 63) (by norm_num) (by decide) (by decide)⟩

/-- C7 counterexample: the claim says decoding with DID = 0 does not
crash; but on the enabled RegisterValue `2^63` (DID field = 0)
`pstate2str` raises `ZeroDivisionError` (modelled as `.error ()`),
aborting the invocation. -/
theorem claim7_counterexample : pstate2str ((2 ^ 63 : ℕ) : ℤ) = .error () := rfl

lemma vcore_to_vid_argsVcore2 : vcore_to_vid argsVcore2.vcore = -72 := by
  have h : ((1.55 : ℚ) - argsVcore2.vcore) / 0.00625 = ((-72 : ℤ) : ℚ) := by
    norm_num [argsVcore2]
  rw [vcore_to_vid, h, pyRound_intCast]

lemma vcore_to_vid_argsVcore11 : vcore_to_vid argsVcore11.vcore = 72 := by
  have h : ((1.55 : ℚ) - argsVcore11.vcore) / 0.00625 = ((72 : ℤ) : ℚ) := by
    norm_num [argsVcore11]
  rw [vcore_to_vid, h, pyRound_intCast]

/-- C6 (amended): for a mutation request whose vcore is non-negative but
rounds to a VID outside 0..255 (for a non-negative vcore the only
possibility is a negative VID), the block aborts — the invalid value is
never written to the P-State register — but the abort happens at the
failed 64-bit pack of the negative value (or at its display), after the
TSC-lock register has been read and possibly locked on every CPU, not
before all MSR writes. -/
theorem claim6_invalid_vcore_aborts (args : Args) (m : Machine)
    (hp : 0 ≤ args.pstate) (_hp8 : args.pstate < 8)
    (hvc : 0 ≤ args.vcore) (hneg : vcore_to_vid args.vcore < 0) :
    (runPStateBlock args m).2 = .error () ∧
    ∀ c v, MsrOp.write c (pstates args.pstate.toNat) v ∉ (runPStateBlock args m).1 :=
  runPStateBlock_err_of_neg args m hp
    (applyEdits_neg_of_bad_vcore args (Int.natCast_nonneg _) hvc hneg)

/-- Witness for C6 (amended): `--pstate 0 --vid 5 --vcore 2` on the
all-zero machine. -/
theorem claim6_invalid_vcore_aborts_witness :
    ((0 : ℤ) ≤ argsVcore2.pstate ∧ argsVcore2.pstate < 8 ∧ (0 : ℚ) ≤ argsVcore2.vcore ∧
      vcore_to_vid argsVcore2.vcore < 0) ∧
    ((runPStateBlock argsVcore2 mzero).2 = .error () ∧
      ∀ c v, MsrOp.write c (pstates argsVcore2.pstate.toNat) v
        ∉ (runPStateBlock argsVcore2 mzero).1) :=
  ⟨⟨by decide, by decide, by norm_num [argsVcore2], by rw [vcore_to_vid_argsVcore2]; decide⟩,
    claim6_invalid_vcore_aborts argsVcore2 mzero (by decide) (by decide)
      (by norm_num [argsVcore2]) (by rw [vcore_to_vid_argsVcore2]; decide)⟩

/-- C6 counterexample: the claim says the mutation aborts before any MSR
write; but on the all-zero machine the request `--pstate 0 --vid 5
--vcore 2` (whose VID rounds to `-72`) produces a TSC-lock MSR write
(value `2^21 = 2097152`) before the abort. -/
theorem claim6_counterexample :
    MsrOp.write 0 0xC0010015 2097152 ∈ (runPStateBlock argsVcore2 mzero).1 ∧
    (runPStateBlock argsVcore2 mzero).2 = .error () := by
  have hvcpos : (0 : ℚ) ≤ argsVcore2.vcore := by norm_num [argsVcore2]
  have hneg : vcore_to_vid argsVcore2.vcore < 0 := by
    rw [vcore_to_vid_argsVcore2]
    decide
  have happneg := applyEdits_neg_of_bad_vcore argsVcore2
    (Int.natCast_nonneg (readmsr mzero (pstates argsVcore2.pstate.toNat))) hvcpos hneg
  have hne : applyEdits argsVcore2 ((readmsr mzero (pstates argsVcore2.pstate.toNat) : ℕ) : ℤ)
      ≠ ((readmsr mzero (pstates argsVcore2.pstate.toNat) : ℕ) : ℤ) := by
    intro hEq
    rw [hEq] at happneg
    exact absurd (Int.natCast_nonneg _) (not_le.mpr happneg)
  obtain ⟨rest, htr, -⟩ := runPStateBlock_mut_shape argsVcore2 mzero (by decide)
    PStateDesc.Disabled rfl hne
  constructor
  · rw [htr]
    exact List.mem_append_left _ (by decide)
  · exact (runPStateBlock_err_of_neg argsVcore2 mzero (by decide) happneg).1

/-- C2: TSC-lock ordering.  In every execution of the mutation path that
reaches the edit decision with a changed value: if bit 21 of the TSC-lock
register read from CPU 0 is unset, the trace splits into a prefix and a
suffix such that every discovered CPU receives a TSC-lock write with bit
21 set in the prefix, the prefix contains no other write, and the suffix
consists only of writes to the target P-State register; if the lock bit
is already set, no TSC-lock write occurs at all. -/
theorem claim2_tsc_lock_order (args : Args) (m : Machine)
    (hp : 0 ≤ args.pstate) (_hp8 : args.pstate < 8) (d : PStateDesc)
    (hok : pstate2str ((readmsr m (pstates args.pstate.toNat) : ℕ) : ℤ) = .ok d)
    (hne : applyEdits args ((readmsr m (pstates args.pstate.toNat) : ℕ) : ℤ)
      ≠ ((readmsr m (pstates args.pstate.toNat) : ℕ) : ℤ)) :
    ((readmsr m 0xC0010015).testBit 21 = false →
      ∃ pre post, (runPStateBlock args m).1 = pre ++ post ∧
        (∀ c, c < m.ncpus → ∃ v, MsrOp.write c 0xC0010015 v ∈ pre ∧ v.testBit 21 = true) ∧
        (∀ c a v, MsrOp.write c a v ∈ pre → a = 0xC0010015) ∧
        (∀ op ∈ post, ∃ c v, op = MsrOp.write c (pstates args.pstate.toNat) v)) ∧
    ((readmsr m 0xC0010015).testBit 21 = true →
      ∀ c v, MsrOp.write c 0xC0010015 v ∉ (runPStateBlock args m).1) := by
  obtain ⟨rest, htr, hrest⟩ := runPStateBlock_mut_shape args m hp d hok hne
  constructor
  · intro hlock
    refine ⟨pstatePre args m, rest, htr, ?_,
      fun c a v h => pstatePre_write_addr args m h, hrest⟩
    intro c hc
    refine ⟨readmsr m 0xC0010015 c ||| 1 <<< 21, ?_, lock_value_testBit _⟩
    unfold pstatePre
    apply List.mem_append_right
    rw [if_pos ((pyAnd_shl21_eq_zero_iff _).mpr hlock)]
    exact tscLockOps_write_mem m hc
  · intro hlock c v hmem
    rw [htr] at hmem
    rcases List.mem_append.mp hmem with h | h
    · unfold pstatePre at h
      rcases List.mem_append.mp h with h | h
      · simp at h
      · have hcne : ¬ pyAnd ((readmsr m 0xC0010015 : ℕ) : ℤ) (pyShl 1 21) = 0 := by
          intro hc0
          rw [(pyAnd_shl21_eq_zero_iff _).mp hc0] at hlock
          exact Bool.noConfusion hlock
        rw [if_neg hcne] at h
        simp at h
    · obtain ⟨c2, v2, hop⟩ := hrest _ h
      injection hop with h1 h2 h3
      have haddr : pstates args.pstate.toNat ≠ 0xC0010015 := by
        unfold pstates
        omega
      exact haddr h2.symm

/-- Witness for C2: `--pstate 0 --enable` on the all-zero machine (lock
bit unset, value changes from 0 to `2^63`). -/
theorem claim2_tsc_lock_order_witness :
    ((0 : ℤ) ≤ argsEnable.pstate ∧ argsEnable.pstate < 8 ∧
      pstate2str ((readmsr mzero (pstates argsEnable.pstate.toNat) : ℕ) : ℤ)
        = .ok PStateDesc.Disabled ∧
      applyEdits argsEnable ((readmsr mzero (pstates argsEnable.pstate.toNat) : ℕ) : ℤ)
        ≠ ((readmsr mzero (pstates argsEnable.pstate.toNat) : ℕ) : ℤ)) ∧
    (((readmsr mzero 0xC0010015).testBit 21 = false →
      ∃ pre post, (runPStateBlock argsEnable mzero).1 = pre ++ post ∧
        (∀ c, c < mzero.ncpus → ∃ v, MsrOp.write c 0xC0010015 v ∈ pre ∧ v.testBit 21 = true) ∧
        (∀ c a v, MsrOp.write c a v ∈ pre → a = 0xC0010015) ∧
        (∀ op ∈ post, ∃ c v, op = MsrOp.write c (pstates argsEnable.pstate.toNat) v)) ∧
    ((readmsr mzero 0xC0010015).testBit 21 = true →
      ∀ c v, MsrOp.write c 0xC0010015 v ∉ (runPStateBlock argsEnable mzero).1)) :=
  ⟨⟨by decide, by decide, rfl, by decide⟩,
    claim2_tsc_lock_order argsEnable mzero (by decide) (by decide) PStateDesc.Disabled rfl
      (by decide)⟩

lemma vidOf_setvid {v : ℤ} (hval : 0 ≤ v) {n : ℤ} (h0 : 0 ≤ n) (h255 : n < 256) :
    vidOf (setvid v n) = n := by
  obtain ⟨q, rfl⟩ := Int.eq_ofNat_of_zero_le hval
  obtain ⟨k, rfl⟩ := Int.eq_ofNat_of_zero_le h0
  rw [setvid, setbits_ofNat, vidOf_ofNat]
  have hk : k < 2 ^ 8 := by exact_mod_cast h255
  have hmask : (0x3fc000 : ℕ) = (2 ^ 8 - 1) <<< 14 := by norm_num [Nat.shiftLeft_eq]
  rw [hmask]
  exact_mod_cast natSetbits_extract q 14 8 k hk

/-- C3 (amended): when a request supplies an explicit vid X in 0..255 and
an explicit vcore Y ≥ 0 whose VID rounds into 0..255, the VID field of
the final encoded value equals `vcore_to_vid Y` — the vcore edit, applied
last, overrides the vid edit — and so differs from X whenever
`vcore_to_vid Y ≠ X`. -/
theorem claim3_vcore_overrides_vid (args : Args) (old : ℕ) (_hold : old < 2 ^ 64)
    (_hX0 : 0 ≤ args.vid) (_hX255 : args.vid ≤ 255) (hvc : 0 ≤ args.vcore)
    (hlo : 0 ≤ vcore_to_vid args.vcore) (hhi : vcore_to_vid args.vcore < 256) :
    vidOf (applyEdits args (old : ℤ)) = vcore_to_vid args.vcore ∧
    (vcore_to_vid args.vcore ≠ args.vid →
      vidOf (applyEdits args (old : ℤ)) ≠ args.vid) := by
  have h1 : vidOf (applyEdits args (old : ℤ)) = vcore_to_vid args.vcore := by
    rw [applyEdits, applyVcore, if_pos hvc, setvid]
    rw [show setbits (applyEditsPre args ((old : ℕ) : ℤ)) 14 8 (vcore_to_vid args.vcore)
        = setvid (applyEditsPre args ((old : ℕ) : ℤ)) (vcore_to_vid args.vcore) from rfl]
    exact vidOf_setvid (applyEditsPre_nonneg args (Int.natCast_nonneg old)) hlo hhi
  refine ⟨h1, fun hdiff => ?_⟩
  rw [h1]
  exact hdiff

/-- Witness for C3 (amended): `--pstate 0 --vid 5 --vcore 1.1` on a zero
starting value; the final VID field is `vcore_to_vid 1.1 = 72`, not 5. -/
theorem claim3_vcore_overrides_vid_witness :
    ((0 : ℕ) < 2 ^ 64 ∧ 0 ≤ argsVcore11.vid ∧ argsVcore11.vid ≤ 255 ∧
      (0 : ℚ) ≤ argsVcore11.vcore ∧ 0 ≤ vcore_to_vid argsVcore11.vcore ∧
      vcore_to_vid argsVcore11.vcore < 256) ∧
    (vidOf (applyEdits argsVcore11 ((0 : ℕ) : ℤ)) = vcore_to_vid argsVcore11.vcore ∧
      (vcore_to_vid argsVcore11.vcore ≠ argsVcore11.vid →
        vidOf (applyEdits argsVcore11 ((0 : ℕ) : ℤ)) ≠ argsVcore11.vid)) :=
  ⟨⟨by norm_num, by decide, by decide, by norm_num [argsVcore11],
    by rw [vcore_to_vid_argsVcore11]; decide, by rw [vcore_to_vid_argsVcore11]; decide⟩,
    claim3_vcore_overrides_vid argsVcore11 0 (by norm_num) (by decide) (by decide)
      (by norm_num [argsVcore11]) (by rw [vcore_to_vid_argsVcore11]; decide)
      (by rw [vcore_to_vid_argsVcore11]; decide)⟩

/-- C3 counterexample: with `vid = 5` and `vcore = 2` (both "valid" per
the claim, which allows any Y ≥ 0), the VID field of the final value is
184, not `vcore_to_vid 2 = -72`: the claimed equality fails for vcores
whose VID rounds outside 0..255. -/
theorem claim3_counterexample :
    vidOf (applyEdits argsVcore2 ((0 : ℕ) : ℤ)) = 184 ∧
    vcore_to_vid argsVcore2.vcore = -72 ∧
    vidOf (applyEdits argsVcore2 ((0 : ℕ) : ℤ)) ≠ vcore_to_vid argsVcore2.vcore := by
  have happ : applyEdits argsVcore2 ((0 : ℕ) : ℤ) = Int.negSucc 1179647 := by
    rw [applyEdits, applyVcore, if_pos (show (0 : ℚ) ≤ argsVcore2.vcore by
        norm_num [argsVcore2]), vcore_to_vid_argsVcore2]
    decide
  refine ⟨by rw [happ]; decide, vcore_to_vid_argsVcore2, ?_⟩
  rw [happ, vcore_to_vid_argsVcore2]
  decide

lemma pyShl_one (n : ℕ) : pyShl (1 : ℤ) n = ((1 <<< n : ℕ) : ℤ) := by
  rw [show (1 : ℤ) = ((1 : ℕ) : ℤ) from rfl, pyShl_ofNat]

lemma readmsr_lt (m : Machine) (a c : ℕ) : readmsr m a c < 2 ^ 64 :=
  Nat.mod_lt _ (by norm_num)

lemma writemsr_broadcast_of_lt {m : Machine} {a x : ℕ} (hx : x < 2 ^ 64) :
    writemsr m a ((x : ℕ) : ℤ) = .ok ((List.range m.ncpus).map fun c => MsrOp.write c a x) := by
  unfold writemsr
  rw [if_pos ⟨Int.natCast_nonneg _, by simpa using hx⟩, if_pos rfl]
  simp

lemma c6CoreMask_eq : c6CoreMask = ((1 <<< 22 ||| 1 <<< 14 ||| 1 <<< 6 : ℕ) : ℤ) := by
  rw [c6CoreMask, pyShl_one, pyShl_one, pyShl_one, pyOr_ofNat, pyOr_ofNat]

lemma natAndNot_lt_two_pow {x : ℕ} (hx : x < 2 ^ 64) (n : ℕ) : natAndNot x n < 2 ^ 64 := by
  apply Nat.lt_pow_two_of_testBit
  intro i hi
  rw [natAndNot_testBit,
    Nat.testBit_lt_two_pow (lt_of_lt_of_le hx (Nat.pow_le_pow_right (by norm_num) hi)),
    Bool.false_and]

lemma or_shl_testBit_self (x n : ℕ) : (x ||| 1 <<< n).testBit n = true := by
  rw [Nat.testBit_or, Nat.one_shiftLeft, Nat.testBit_two_pow_self, Bool.or_true]

lemma or_shl_testBit_ne (x : ℕ) {n i : ℕ} (h : n ≠ i) :
    (x ||| 1 <<< n).testBit i = x.testBit i := by
  rw [Nat.testBit_or, Nat.one_shiftLeft, Nat.testBit_two_pow_of_ne h, Bool.or_false]

lemma coreMask_testBit (i : ℕ) :
    (1 <<< 22 ||| 1 <<< 14 ||| 1 <<< 6 : ℕ).testBit i
      = (decide (22 = i) || decide (14 = i) || decide (6 = i)) := by
  rw [Nat.testBit_or, Nat.testBit_or, Nat.one_shiftLeft, Nat.one_shiftLeft, Nat.one_shiftLeft,
    Nat.testBit_two_pow, Nat.testBit_two_pow, Nat.testBit_two_pow]

lemma or_coreMask_testBit (x i : ℕ) :
    (x ||| (1 <<< 22 ||| 1 <<< 14 ||| 1 <<< 6)).testBit i
      = (x.testBit i || (decide (22 = i) || decide (14 = i) || decide (6 = i))) := by
  rw [Nat.testBit_or, coreMask_testBit]

lemma andNot_coreMask_testBit (x i : ℕ) :
    (natAndNot x (1 <<< 22 ||| 1 <<< 14 ||| 1 <<< 6)).testBit i
      = (x.testBit i && !(decide (22 = i) || decide (14 = i) || decide (6 = i))) := by
  rw [natAndNot_testBit, coreMask_testBit]

lemma andNot_shl_testBit (x n i : ℕ) :
    (natAndNot x (1 <<< n)).testBit i = (x.testBit i && !decide (n = i)) := by
  rw [natAndNot_testBit, Nat.one_shiftLeft, Nat.testBit_two_pow]

lemma runC6Enable_eq (m : Machine) :
    runC6Enable m =
      ([MsrOp.read 0 0xC0010292] ++
        ((List.range m.ncpus).map fun c =>
          MsrOp.write c 0xC0010292 (readmsr m 0xC0010292 ||| 1 <<< 32)) ++
        [MsrOp.read 0 0xC0010296] ++
        ((List.range m.ncpus).map fun c =>
          MsrOp.write c 0xC0010296
            (readmsr m 0xC0010296 ||| (1 <<< 22 ||| 1 <<< 14 ||| 1 <<< 6))), .ok ()) := by
  have hA : writemsr m 0xC0010292 (pyOr ((readmsr m 0xC0010292 : ℕ) : ℤ) (pyShl 1 32))
      = .ok ((List.range m.ncpus).map fun c =>
          MsrOp.write c 0xC0010292 (readmsr m 0xC0010292 ||| 1 <<< 32)) := by
    rw [pyShl_one, pyOr_ofNat]
    exact writemsr_broadcast_of_lt (Nat.or_lt_two_pow (readmsr_lt m 0xC0010292 0) (by decide))
  have hB : writemsr m 0xC0010296 (pyOr ((readmsr m 0xC0010296 : ℕ) : ℤ) c6CoreMask)
      = .ok ((List.range m.ncpus).map fun c =>
          MsrOp.write c 0xC0010296
            (readmsr m 0xC0010296 ||| (1 <<< 22 ||| 1 <<< 14 ||| 1 <<< 6))) := by
    rw [c6CoreMask_eq, pyOr_ofNat]
    exact writemsr_broadcast_of_lt (Nat.or_lt_two_pow (readmsr_lt m 0xC0010296 0) (by decide))
  rw [runC6Enable, hA, hB]

lemma runC6Disable_eq (m : Machine) :
    runC6Disable m =
      ([MsrOp.read 0 0xC0010292] ++
        ((List.range m.ncpus).map fun c =>
          MsrOp.write c 0xC0010292 (natAndNot (readmsr m 0xC0010292) (1 <<< 32))) ++
        [MsrOp.read 0 0xC0010296] ++
        ((List.range m.ncpus).map fun c =>
          MsrOp.write c 0xC0010296
            (natAndNot (readmsr m 0xC0010296) (1 <<< 22 ||| 1 <<< 14 ||| 1 <<< 6))), .ok ()) := by
  have hA : writemsr m 0xC0010292 (pyAnd ((readmsr m 0xC0010292 : ℕ) : ℤ) (pyNot (pyShl 1 32)))
      = .ok ((List.range m.ncpus).map fun c =>
          MsrOp.write c 0xC0010292 (natAndNot (readmsr m 0xC0010292) (1 <<< 32))) := by
    rw [pyShl_one, pyNot_ofNat, pyAnd_ofNat_negSucc]
    exact writemsr_broadcast_of_lt (natAndNot_lt_two_pow (readmsr_lt m 0xC0010292 0) _)
  have hB : writemsr m 0xC0010296 (pyAnd ((readmsr m 0xC0010296 : ℕ) : ℤ) (pyNot c6CoreMask))
      = .ok ((List.range m.ncpus).map fun c =>
          MsrOp.write c 0xC0010296
            (natAndNot (readmsr m 0xC0010296) (1 <<< 22 ||| 1 <<< 14 ||| 1 <<< 6))) := by
    rw [c6CoreMask_eq, pyNot_ofNat, pyAnd_ofNat_negSucc]
    exact writemsr_broadcast_of_lt (natAndNot_lt_two_pow (readmsr_lt m 0xC0010296 0) _)
  rw [runC6Disable, hA, hB]

/-- C9: C6 toggle bit behaviour.  Enabling writes back the package
register with bit 32 ORed in and the core register with bits 6, 14, 22
ORed in (broadcast to every discovered CPU); disabling writes back the
same registers with those bits cleared; in both directions every other
bit of both registers is bit-for-bit unchanged; and in particular the
package value 0 becomes `0x100000000` on enable, and `0x100000000`
becomes 0 on disable. -/
theorem claim9_c6_toggle (m : Machine) :
    ((runC6Enable m).2 = .ok () ∧
      (runC6Enable m).1 =
        [MsrOp.read 0 0xC0010292] ++
          ((List.range m.ncpus).map fun c =>
            MsrOp.write c 0xC0010292 (readmsr m 0xC0010292 ||| 1 <<< 32)) ++
          [MsrOp.read 0 0xC0010296] ++
          ((List.range m.ncpus).map fun c =>
            MsrOp.write c 0xC0010296
              (readmsr m 0xC0010296 ||| (1 <<< 22 ||| 1 <<< 14 ||| 1 <<< 6)))) ∧
    ((runC6Disable m).2 = .ok () ∧
      (runC6Disable m).1 =
        [MsrOp.read 0 0xC0010292] ++
          ((List.range m.ncpus).map fun c =>
            MsrOp.write c 0xC0010292 (natAndNot (readmsr m 0xC0010292) (1 <<< 32))) ++
          [MsrOp.read 0 0xC0010296] ++
          ((List.range m.ncpus).map fun c =>
            MsrOp.write c 0xC0010296
              (natAndNot (readmsr m 0xC0010296) (1 <<< 22 ||| 1 <<< 14 ||| 1 <<< 6)))) ∧
    ((readmsr m 0xC0010292 ||| 1 <<< 32).testBit 32 = true ∧
      ∀ i, i ≠ 32 → (readmsr m 0xC0010292 ||| 1 <<< 32).testBit i
        = (readmsr m 0xC0010292).testBit i) ∧
    ((readmsr m 0xC0010296 ||| (1 <<< 22 ||| 1 <<< 14 ||| 1 <<< 6)).testBit 22 = true ∧
      (readmsr m 0xC0010296 ||| (1 <<< 22 ||| 1 <<< 14 ||| 1 <<< 6)).testBit 14 = true ∧
      (readmsr m 0xC0010296 ||| (1 <<< 22 ||| 1 <<< 14 ||| 1 <<< 6)).testBit 6 = true ∧
      ∀ i, i ≠ 22 → i ≠ 14 → i ≠ 6 →
        (readmsr m 0xC0010296 ||| (1 <<< 22 ||| 1 <<< 14 ||| 1 <<< 6)).testBit i
          = (readmsr m 0xC0010296).testBit i) ∧
    ((natAndNot (readmsr m 0xC0010292) (1 <<< 32)).testBit 32 = false ∧
      ∀ i, i ≠ 32 → (natAndNot (readmsr m 0xC0010292) (1 <<< 32)).testBit i
        = (readmsr m 0xC0010292).testBit i) ∧
    ((natAndNot (readmsr m 0xC0010296) (1 <<< 22 ||| 1 <<< 14 ||| 1 <<< 6)).testBit 22
        = false ∧
      (natAndNot (readmsr m 0xC0010296) (1 <<< 22 ||| 1 <<< 14 ||| 1 <<< 6)).testBit 14
        = false ∧
      (natAndNot (readmsr m 0xC0010296) (1 <<< 22 ||| 1 <<< 14 ||| 1 <<< 6)).testBit 6
        = false ∧
      ∀ i, i ≠ 22 → i ≠ 14 → i ≠ 6 →
        (natAndNot (readmsr m 0xC0010296) (1 <<< 22 ||| 1 <<< 14 ||| 1 <<< 6)).testBit i
          = (readmsr m 0xC0010296).testBit i) ∧
    ((0 ||| 1 <<< 32 : ℕ) = 0x100000000 ∧ natAndNot 0x100000000 (1 <<< 32) = 0) := by
  refine ⟨⟨by rw [runC6Enable_eq], by rw [runC6Enable_eq]⟩,
    ⟨by rw [runC6Disable_eq], by rw [runC6Disable_eq]⟩,
    ⟨or_shl_testBit_self _ 32, fun i hi => or_shl_testBit_ne _ (Ne.symm hi)⟩,
    ⟨by rw [or_coreMask_testBit]; simp, by rw [or_coreMask_testBit]; simp,
      by rw [or_coreMask_testBit]; simp, fun i h22 h14 h6 => ?_⟩,
    ⟨by rw [andNot_shl_testBit]; simp, fun i hi => ?_⟩,
    ⟨by rw [andNot_coreMask_testBit]; simp, by rw [andNot_coreMask_testBit]; simp,
      by rw [andNot_coreMask_testBit]; simp, fun i h22 h14 h6 => ?_⟩,
    ⟨by decide, by decide⟩⟩
  · rw [or_coreMask_testBit]
    simp [Ne.symm h22, Ne.symm h14, Ne.symm h6]
  · rw [andNot_shl_testBit]
    simp [Ne.symm hi]
  · rw [andNot_coreMask_testBit]
    simp [Ne.symm h22, Ne.symm h14, Ne.symm h6]

/-- Witness for C9: both toggle runs complete without error on the
all-zero machine. -/
theorem claim9_c6_toggle_witness :
    (runC6Enable mzero).2 = .ok () ∧ (runC6Disable mzero).2 = .ok () :=
  ⟨(claim9_c6_toggle mzero).1.1, (claim9_c6_toggle mzero).2.1.1⟩

end ZenStates
